import Mathlib

/-!
# Verification of the arke-server protocol core

A shallow embedding of the arke-server repository: the serde_json wire
encoding of `ArkeCommand` (tagged JSON text with string escapes and decimal
numbers, as produced by `ArkeServer::send_command` and consumed by
`serde_json::from_slice` in `ArkeServer::handle_connection`), the connection
engine loop, the `User` one-time-prekey operations (which store the pool as a
JSON string, exactly as `src/user.rs` does), the command discriminant, and the
command handlers.  Strings are modelled as `List Char` (Rust strings are
sequences of Unicode scalar values, as is `List Char`), bytes as `Nat` with
explicit range side conditions where `u8` matters.
-/

namespace Arke

/-- Shorthand: the character list of a string literal. -/
def lit (s : String) : List Char := s.data

/-! ## Decimal numbers on the wire

serde_json renders a `u8` as its decimal digits and parses a run of decimal
digits back.  `renderNat` is the standard most-significant-first rendering;
`parseNatAux` folds a digit run back into a number. -/

/-- Decimal rendering of a natural number, most significant digit first,
prepended to `acc`, with a step budget (one digit is emitted per step, so
`renderNat`'s budget of `n + 1` can never run out). -/
def renderNatAux : Nat → Nat → List Char → List Char
  | 0, _, acc => acc
  | fuel + 1, n, acc =>
    if n < 10 then Nat.digitChar n :: acc
    else renderNatAux fuel (n / 10) (Nat.digitChar (n % 10) :: acc)

/-- Decimal rendering of a natural number (`serde_json` integer output). -/
def renderNat (n : Nat) : List Char := renderNatAux (n + 1) n []

/-- Fold a maximal run of decimal digits into a number, left to right. -/
def parseNatAux (acc : Nat) : List Char → (Nat × List Char)
  | [] => (acc, [])
  | c :: rest =>
    if c.isDigit then parseNatAux (acc * 10 + (c.toNat - 48)) rest
    else (acc, c :: rest)

/-- Parse a JSON decimal number: at least one digit, and no leading zeros —
a leading `0` is the whole number, as in serde_json's number grammar. -/
def parseNat : List Char → Option (Nat × List Char)
  | [] => none
  | c :: rest =>
    if c = '0' then some (0, rest)
    else if c.isDigit then some (parseNatAux (c.toNat - 48) rest) else none

/-- The budget does not matter as long as it is large enough. -/
theorem renderNatAux_fuel (n : Nat) :
    ∀ f1 f2 acc, n < f1 → n < f2 →
      renderNatAux f1 n acc = renderNatAux f2 n acc := by
  induction n using Nat.strong_induction_on with
  | _ n ih =>
    intro f1 f2 acc h1 h2
    cases f1 with
    | zero => omega
    | succ f1 =>
      cases f2 with
      | zero => omega
      | succ f2 =>
        rw [renderNatAux, renderNatAux]
        by_cases h : n < 10
        · simp [h]
        · simp only [h, if_false]
          have hd : n / 10 < n := Nat.div_lt_self (by omega) (by omega)
          exact ih (n / 10) hd f1 f2 _ (by omega) (by omega)

theorem renderNatAux_acc (n : Nat) :
    ∀ fuel acc, n < fuel →
      renderNatAux fuel n acc = renderNatAux fuel n [] ++ acc := by
  induction n using Nat.strong_induction_on with
  | _ n ih =>
    intro fuel acc hfuel
    cases fuel with
    | zero => omega
    | succ fuel =>
      conv_lhs => rw [renderNatAux]
      conv_rhs => rw [renderNatAux]
      by_cases h : n < 10
      · simp [h]
      · simp only [h, if_false]
        have hd : n / 10 < n := Nat.div_lt_self (by omega) (by omega)
        rw [ih (n / 10) hd fuel _ (by omega),
          ih (n / 10) hd fuel ((Nat.digitChar (n % 10)) :: []) (by omega)]
        simp

theorem digitChar_isDigit {d : Nat} (h : d < 10) : (Nat.digitChar d).isDigit := by
  interval_cases d <;> decide

theorem digitChar_toNat {d : Nat} (h : d < 10) : (Nat.digitChar d).toNat - 48 = d := by
  interval_cases d <;> decide

theorem digitChar_ne_zero {d : Nat} (h0 : 0 < d) (h : d < 10) :
    Nat.digitChar d ≠ '0' := by
  interval_cases d <;> decide

/-- A positive number renders with a nonzero leading digit. -/
theorem renderNatAux_head_pos (n : Nat) :
    ∀ fuel acc, 0 < n → n < fuel →
      ∃ d t, renderNatAux fuel n acc = Nat.digitChar d :: t ∧ 0 < d ∧ d < 10 := by
  induction n using Nat.strong_induction_on with
  | _ n ih =>
    intro fuel acc hn hf
    cases fuel with
    | zero => omega
    | succ fuel =>
      rw [renderNatAux]
      by_cases h : n < 10
      · exact ⟨n, acc, by simp [h], hn, h⟩
      · simp only [h, if_false]
        have hd : n / 10 < n := Nat.div_lt_self (by omega) (by omega)
        have h10 : 0 < n / 10 := Nat.div_pos (by omega) (by omega)
        exact ih (n / 10) hd fuel _ h10 (by omega)

/-- Consuming the rendered digits of `n` multiplies the accumulator by
`10 ^ (number of digits)` and adds `n`. -/
theorem parseNatAux_render (n : Nat) :
    ∀ fuel acc rest, n < fuel →
      parseNatAux acc (renderNatAux fuel n [] ++ rest) =
      parseNatAux (acc * 10 ^ (renderNatAux fuel n []).length + n) rest := by
  induction n using Nat.strong_induction_on with
  | _ n ih =>
    intro fuel acc rest hfuel
    cases fuel with
    | zero => omega
    | succ fuel =>
      by_cases h : n < 10
      · rw [renderNatAux]
        simp only [h, if_true, List.singleton_append, List.length_singleton]
        rw [parseNatAux]
        simp [digitChar_isDigit h, digitChar_toNat h]
      · have hd : n / 10 < n := Nat.div_lt_self (by omega) (by omega)
        rw [renderNatAux]
        simp only [h, if_false]
        rw [renderNatAux_acc (n / 10) fuel _ (by omega), List.append_assoc,
          List.singleton_append, ih (n / 10) hd fuel acc _ (by omega)]
        rw [parseNatAux]
        simp only [digitChar_isDigit (Nat.mod_lt n (by omega)),
          digitChar_toNat (Nat.mod_lt n (by omega)), if_true]
        rw [List.length_append, List.length_singleton]
        congr 1
        have hdm := Nat.div_add_mod n 10
        set L := (renderNatAux fuel (n / 10) []).length
        ring_nf
        omega

theorem parseNatAux_stop {rest : List Char} (acc : Nat)
    (h : ∀ c, rest.head? = some c → ¬ c.isDigit) :
    parseNatAux acc rest = (acc, rest) := by
  cases rest with
  | nil => rfl
  | cons c t =>
    rw [parseNatAux]
    simp [h c rfl]

theorem renderNatAux_digits :
    ∀ fuel n acc, (∀ c ∈ acc, c.isDigit) →
      ∀ c ∈ renderNatAux fuel n acc, c.isDigit := by
  intro fuel
  induction fuel with
  | zero => intro n acc hacc c hc; exact hacc c hc
  | succ fuel ih =>
    intro n acc hacc c hc
    rw [renderNatAux] at hc
    by_cases h : n < 10
    · simp only [h, if_true] at hc
      rcases List.mem_cons.mp hc with h1 | h1
      · subst h1; exact digitChar_isDigit h
      · exact hacc c h1
    · simp only [h, if_false] at hc
      refine ih (n / 10) _ ?_ c hc
      intro d hd
      rcases List.mem_cons.mp hd with h1 | h1
      · subst h1; exact digitChar_isDigit (Nat.mod_lt n (by omega))
      · exact hacc d h1

theorem renderNatAux_ne_nil :
    ∀ fuel n acc, acc ≠ [] → renderNatAux fuel n acc ≠ [] := by
  intro fuel
  induction fuel with
  | zero => intro n acc hacc; exact hacc
  | succ fuel ih =>
    intro n acc hacc
    rw [renderNatAux]
    by_cases h : n < 10
    · simp [h]
    · simp only [h, if_false]
      exact ih (n / 10) _ (by simp)

theorem renderNat_ne_nil (n : Nat) : renderNat n ≠ [] := by
  rw [renderNat, renderNatAux]
  by_cases h : n < 10
  · simp [h]
  · simp only [h, if_false]
    exact renderNatAux_ne_nil n (n / 10) _ (by simp)

/-- Round trip for decimal numbers: parsing the rendering of `n` followed by
any non-digit-headed remainder recovers `n` and the remainder. -/
theorem parseNat_render (n : Nat) (rest : List Char)
    (h : ∀ c, rest.head? = some c → ¬ c.isDigit) :
    parseNat (renderNat n ++ rest) = some (n, rest) := by
  cases Nat.eq_zero_or_pos n with
  | inl h0 =>
    subst h0
    rw [show renderNat 0 = ['0'] from rfl, List.singleton_append, parseNat,
      if_pos rfl]
  | inr hpos =>
    obtain ⟨d, t, hL, hd0, hd10⟩ :=
      renderNatAux_head_pos n (n + 1) [] hpos (by omega)
    have hcdig : (Nat.digitChar d).isDigit := digitChar_isDigit hd10
    have key := parseNatAux_render n (n + 1) 0 rest (by omega)
    rw [renderNat, hL, List.cons_append, parseNat,
      if_neg (digitChar_ne_zero hd0 hd10)]
    simp only [hcdig, if_true, Option.some.injEq]
    rw [hL, List.cons_append, parseNatAux] at key
    simp only [hcdig, if_true, Nat.zero_mul, Nat.zero_add] at key
    rw [key]
    exact parseNatAux_stop n h

/-! ## JSON strings on the wire

serde_json escapes `"` and `\` and the ASCII control characters: `\b`, `\t`,
`\n`, `\f`, `\r` have short escapes, every other control character becomes
`\u00XX` with lowercase hex; all other characters are emitted verbatim.  The
parser reverses this (also accepting the JSON `\/` escape) and rejects raw
control characters inside a string, as serde_json does. -/

/-- The short escape serde_json uses for `c`, if any. -/
def escSimple? (c : Char) : Option Char :=
  if c = '"' then some '"'
  else if c = '\\' then some '\\'
  else if c = '\x08' then some 'b'
  else if c = '\t' then some 't'
  else if c = '\n' then some 'n'
  else if c = '\x0c' then some 'f'
  else if c = '\r' then some 'r'
  else none

/-- serde_json's escaping of one character inside a JSON string literal. -/
def escapeChar (c : Char) : List Char :=
  match escSimple? c with
  | some e => ['\\', e]
  | none =>
    if c.toNat < 32 then
      ['\\', 'u', '0', '0', Nat.digitChar (c.toNat / 16), Nat.digitChar (c.toNat % 16)]
    else [c]

/-- serde_json's escaping of a whole string body (quotes not included). -/
def escapeString : List Char → List Char
  | [] => []
  | c :: rest => escapeChar c ++ escapeString rest

/-- Value of one hex digit, upper or lower case. -/
def hexVal? (c : Char) : Option Nat :=
  if '0' ≤ c ∧ c ≤ '9' then some (c.toNat - 48)
  else if 'a' ≤ c ∧ c ≤ 'f' then some (c.toNat - 87)
  else if 'A' ≤ c ∧ c ≤ 'F' then some (c.toNat - 55)
  else none

/-- Decoding of a short escape character (JSON also allows an escaped slash). -/
def unescSimple? (e : Char) : Option Char :=
  if e = '"' then some '"'
  else if e = '\\' then some '\\'
  else if e = '/' then some '/'
  else if e = 'b' then some '\x08'
  else if e = 't' then some '\t'
  else if e = 'n' then some '\n'
  else if e = 'f' then some '\x0c'
  else if e = 'r' then some '\r'
  else none

/-- Decode the four hex digits of a `\uXXXX` escape, when they name a
valid scalar value. -/
def parseU4 : List Char → Option (Char × List Char)
  | h1 :: h2 :: h3 :: h4 :: rest =>
    match hexVal? h1, hexVal? h2, hexVal? h3, hexVal? h4 with
    | some a, some b, some c, some d =>
      if (((a * 16 + b) * 16 + c) * 16 + d).isValidChar then
        some (Char.ofNat (((a * 16 + b) * 16 + c) * 16 + d), rest)
      else none
    | _, _, _, _ => none
  | _ => none

/-- Decode one escape sequence (the backslash has been consumed): either a
short escape or `\uXXXX` naming a valid scalar value. -/
def parseEscape1 : List Char → Option (Char × List Char)
  | [] => none
  | e :: rest =>
    if e = 'u' then parseU4 rest
    else
      match unescSimple? e with
      | some c => some (c, rest)
      | none => none

/-- The body loop of a JSON string literal, with a step budget (at least
one input character is consumed per step, so `parseStringBody`'s budget of
`length + 1` can never run out). -/
def parseStringBodyF : Nat → List Char → Option (List Char × List Char)
  | 0, _ => none
  | _ + 1, [] => none
  | fuel + 1, c :: rest =>
    if c = '"' then some ([], rest)
    else if c = '\\' then
      match parseEscape1 rest with
      | some (c2, rest2) =>
        match parseStringBodyF fuel rest2 with
        | some (t, r) => some (c2 :: t, r)
        | none => none
      | none => none
    else if c.toNat < 32 then none
    else
      match parseStringBodyF fuel rest with
      | some (t, r) => some (c :: t, r)
      | none => none

/-- Parse the body of a JSON string literal (the opening quote has been
consumed); returns the unescaped contents and the input after the closing
quote. -/
def parseStringBody (s : List Char) : Option (List Char × List Char) :=
  parseStringBodyF (s.length + 1) s

theorem parseEscape1_simple {e c : Char} (he : e ≠ 'u')
    (hun : unescSimple? e = some c) (rest : List Char) :
    parseEscape1 (e :: rest) = some (c, rest) := by
  rw [parseEscape1, if_neg he, hun]

/-- Every character of an escaped string costs at least one input
character, so the escaped form is at least as long as the original. -/
theorem escapeString_length (s : List Char) :
    s.length ≤ (escapeString s).length := by
  induction s with
  | nil => simp [escapeString]
  | cons c cs ih =>
    rw [escapeString, List.length_append, List.length_cons]
    have h1 : 1 ≤ (escapeChar c).length := by
      rw [escapeChar]
      cases hesc : escSimple? c
      · by_cases hctl : c.toNat < 32 <;> simp [hctl]
      · simp
    omega

theorem escSimple?_unesc {c e : Char} (h : escSimple? c = some e) :
    e ≠ 'u' ∧ unescSimple? e = some c := by
  rw [escSimple?] at h
  split_ifs at h with h1 h2 h3 h4 h5 h6 h7 <;>
    first
    | (injection h with h; subst h; subst_vars; exact ⟨by decide, by decide⟩)
    | exact Option.noConfusion h

theorem escSimple?_none {c : Char} (h : escSimple? c = none) :
    c ≠ '"' ∧ c ≠ '\\' := by
  rw [escSimple?] at h
  split_ifs at h with h1 h2 <;> simp_all

theorem hexVal?_digitChar {d : Nat} (h : d < 16) :
    hexVal? (Nat.digitChar d) = some d := by
  interval_cases d <;> decide

theorem parseEscape1_u (h1 h2 h3 h4 : Char) (rest : List Char) :
    parseEscape1 ('u' :: h1 :: h2 :: h3 :: h4 :: rest) =
      match hexVal? h1, hexVal? h2, hexVal? h3, hexVal? h4 with
      | some a, some b, some c, some d =>
        if (((a * 16 + b) * 16 + c) * 16 + d).isValidChar then
          some (Char.ofNat (((a * 16 + b) * 16 + c) * 16 + d), rest)
        else none
      | _, _, _, _ => none := by
  rw [parseEscape1, if_pos rfl, parseU4]

theorem parseStringBodyF_escape (s : List Char) :
    ∀ fuel rest, s.length < fuel →
      parseStringBodyF fuel (escapeString s ++ '"' :: rest) = some (s, rest) := by
  induction s with
  | nil =>
    intro fuel rest hf
    cases fuel with
    | zero => omega
    | succ fuel =>
      rw [escapeString, List.nil_append, parseStringBodyF, if_pos rfl]
  | cons c cs ih =>
    intro fuel rest hf
    cases fuel with
    | zero => omega
    | succ fuel =>
      have hcs : cs.length < fuel := by
        simp only [List.length_cons] at hf
        omega
      rw [escapeString, escapeChar]
      cases hesc : escSimple? c with
      | some e =>
        obtain ⟨heu, hun⟩ := escSimple?_unesc hesc
        simp only [List.append_assoc, List.cons_append, List.nil_append]
        rw [parseStringBodyF, if_neg (by decide), if_pos rfl,
          parseEscape1_simple heu hun]
        trans (match parseStringBodyF fuel
            (escapeString cs ++ '"' :: rest) with
          | some (t, r) => some (c :: t, r)
          | none => none)
        · rfl
        rw [ih fuel rest hcs]
      | none =>
        obtain ⟨hq, hb⟩ := escSimple?_none hesc
        by_cases hctl : c.toNat < 32
        · simp only [hctl, if_true, List.append_assoc, List.cons_append,
            List.nil_append]
          rw [parseStringBodyF, if_neg (by decide), if_pos rfl,
            parseEscape1_u]
          have hdiv : c.toNat / 16 < 16 := by omega
          have hmod : c.toNat % 16 < 16 := by omega
          rw [hexVal?_digitChar hdiv, hexVal?_digitChar hmod,
            (by decide : hexVal? '0' = some 0)]
          have hn : ((0 * 16 + 0) * 16 + c.toNat / 16) * 16 + c.toNat % 16
              = c.toNat := by omega
          simp only [hn]
          have hvalid : c.toNat.isValidChar := Or.inl (by omega)
          rw [if_pos hvalid, Char.ofNat_toNat]
          trans (match parseStringBodyF fuel
              (escapeString cs ++ '"' :: rest) with
            | some (t, r) => some (c :: t, r)
            | none => none)
          · rfl
          rw [ih fuel rest hcs]
        · simp only [hctl, if_false, List.append_assoc, List.cons_append,
            List.nil_append]
          rw [parseStringBodyF, if_neg hq, if_neg hb, if_neg hctl,
            ih fuel rest hcs]

/-- Round trip for JSON string bodies: parsing the escaped form of `s`
followed by a closing quote recovers `s`. -/
theorem parseStringBody_escape (s : List Char) :
    ∀ rest, parseStringBody (escapeString s ++ '"' :: rest) = some (s, rest) := by
  intro rest
  rw [parseStringBody]
  refine parseStringBodyF_escape s _ rest ?_
  have h1 := escapeString_length s
  simp only [List.length_append, List.length_cons]
  omega

/-! ## Literal tokens -/

/-- Consume an expected literal prefix, returning the remainder. -/
def expectChars : List Char → List Char → Option (List Char)
  | [], s => some s
  | _ :: _, [] => none
  | c :: cs, d :: s => if d = c then expectChars cs s else none

@[simp] theorem expectChars_append (l rest : List Char) :
    expectChars l (l ++ rest) = some rest := by
  induction l with
  | nil => rfl
  | cons c cs ih => rw [List.cons_append, expectChars, if_pos rfl, ih]

/-! ## Byte vectors and prekey lists on the wire

A Rust `Vec<u8>` crosses the wire as a JSON array of decimal numbers (the
`PublicKey` newtype around `Vec<u8>` is transparent to serde), and a
`Vec<PublicKey>` as an array of such arrays.  The element loops take an
explicit step budget; the top-level entry points pass `length + 1`, which a
loop that consumes at least one character per element can never exhaust. -/

/-- The public half of a key pair, as in `src/crypto/mod.rs`: a byte vector
(`Nat`s constrained to bytes by `PKWF` where it matters). -/
structure PublicKey where
  data : List Nat
deriving DecidableEq, Repr

/-- All stored numbers fit in a `u8`, as Rust's `Vec<u8>` guarantees. -/
def PKWF (k : PublicKey) : Prop := ∀ b ∈ k.data, b < 256

instance (k : PublicKey) : Decidable (PKWF k) := by
  unfold PKWF; infer_instance

/-- Element loop for a JSON array of numbers: parses `n₁,…,nₖ]…` (the
opening bracket has already been consumed; at least one element). -/
def parseNatElemsF : Nat → List Char → Option (List Nat × List Char)
  | 0, _ => none
  | fuel + 1, s =>
    match parseNat s with
    | none => none
    | some (n, rest) =>
      match rest with
      | ',' :: rest2 =>
        match parseNatElemsF fuel rest2 with
        | some (ns, r) => some (n :: ns, r)
        | none => none
      | ']' :: rest2 => some ([n], rest2)
      | _ => none

/-- A JSON array of numbers (`[..]`). -/
def parseNatList (s : List Char) : Option (List Nat × List Char) :=
  match s with
  | '[' :: rest =>
    if rest.head? = some ']' then some ([], rest.tail)
    else parseNatElemsF (rest.length + 1) rest
  | _ => none

/-- serde deserialization of a `Vec<u8>`: a JSON array of numbers each of
which must fit in a byte. -/
def parseBytes (s : List Char) : Option (List Nat × List Char) :=
  match parseNatList s with
  | some (ns, rest) => if ns.all (fun n => n < 256) then some (ns, rest) else none
  | none => none

/-- Element loop for a JSON array of byte arrays. -/
def parsePKElemsF : Nat → List Char → Option (List PublicKey × List Char)
  | 0, _ => none
  | fuel + 1, s =>
    match parseBytes s with
    | none => none
    | some (bs, rest) =>
      match rest with
      | ',' :: rest2 =>
        match parsePKElemsF fuel rest2 with
        | some (ks, r) => some (PublicKey.mk bs :: ks, r)
        | none => none
      | ']' :: rest2 => some ([PublicKey.mk bs], rest2)
      | _ => none

/-- serde deserialization of a `Vec<PublicKey>`: a JSON array of byte
arrays. -/
def parsePKList (s : List Char) : Option (List PublicKey × List Char) :=
  match s with
  | '[' :: rest =>
    if rest.head? = some ']' then some ([], rest.tail)
    else parsePKElemsF (rest.length + 1) rest
  | _ => none

/-- Comma separated decimal rendering of the elements of a `Vec<u8>`. -/
def sepRenderNat : List Nat → List Char
  | [] => []
  | [n] => renderNat n
  | n :: m :: ms => renderNat n ++ ',' :: sepRenderNat (m :: ms)

/-- serde_json rendering of a `Vec<u8>`: a compact JSON array of decimals. -/
def renderBytes (ns : List Nat) : List Char := '[' :: (sepRenderNat ns ++ [']'])

/-- serde_json rendering of one `PublicKey`. -/
def renderPK (k : PublicKey) : List Char := renderBytes k.data

/-- Comma separated rendering of the elements of a `Vec<PublicKey>`. -/
def sepRenderPK : List PublicKey → List Char
  | [] => []
  | [k] => renderPK k
  | k :: k2 :: ks => renderPK k ++ ',' :: sepRenderPK (k2 :: ks)

/-- serde_json rendering of a `Vec<PublicKey>`. -/
def renderPKList (ks : List PublicKey) : List Char :=
  '[' :: (sepRenderPK ks ++ [']'])

theorem renderNat_head_digit (n : Nat) {c : Char}
    (h : (renderNat n).head? = some c) : c.isDigit := by
  refine renderNatAux_digits (n + 1) n [] (by simp) c ?_
  cases hL : renderNat n with
  | nil => rw [hL] at h; cases h
  | cons a t =>
    rw [hL] at h
    simp only [List.head?_cons, Option.some.injEq] at h
    subst h
    rw [renderNat] at hL
    rw [hL]
    exact List.mem_cons_self a t

/-- The element loop reads back a rendered, nonempty number list. -/
theorem parseNatElemsF_render (ns : List Nat) :
    ∀ fuel rest, ns ≠ [] → ns.length ≤ fuel →
      parseNatElemsF fuel (sepRenderNat ns ++ ']' :: rest) = some (ns, rest) := by
  induction ns with
  | nil => intro _ _ hne _; exact absurd rfl hne
  | cons n ns ih =>
    intro fuel rest _ hfuel
    cases fuel with
    | zero => simp at hfuel
    | succ fuel =>
      cases ns with
      | nil =>
        rw [sepRenderNat, parseNatElemsF,
          parseNat_render n (']' :: rest) (by intro c hc; cases hc; decide)]
        rfl
      | cons m ms =>
        rw [sepRenderNat, List.append_assoc, List.cons_append, parseNatElemsF,
          parseNat_render n (',' :: (sepRenderNat (m :: ms) ++ ']' :: rest))
            (by intro c hc; cases hc; decide)]
        trans (match parseNatElemsF fuel (sepRenderNat (m :: ms) ++ ']' :: rest) with
          | some (ms', r) => some (n :: ms', r)
          | none => none)
        · rfl
        rw [ih fuel rest (by simp) (by simpa using Nat.le_of_succ_le_succ hfuel)]

theorem sepRenderNat_head_digit (ns : List Nat) (hne : ns ≠ []) {c : Char}
    (h : (sepRenderNat ns).head? = some c) : c.isDigit := by
  cases ns with
  | nil => exact absurd rfl hne
  | cons n ns =>
    cases ns with
    | nil =>
      rw [sepRenderNat] at h
      exact renderNat_head_digit n h
    | cons m ms =>
      rw [sepRenderNat] at h
      cases hL : renderNat n with
      | nil => exact absurd hL (renderNat_ne_nil n)
      | cons a t =>
        rw [hL, List.cons_append, List.head?_cons] at h
        refine renderNat_head_digit n ?_
        rw [hL, List.head?_cons, h]

theorem sepRenderNat_length (ns : List Nat) :
    ns.length ≤ (sepRenderNat ns).length := by
  induction ns with
  | nil => simp [sepRenderNat]
  | cons n ns ih =>
    cases ns with
    | nil =>
      rw [sepRenderNat]
      have := renderNat_ne_nil n
      cases hL : renderNat n with
      | nil => exact absurd hL this
      | cons a t => simp
    | cons m ms =>
      rw [sepRenderNat]
      have := renderNat_ne_nil n
      cases hL : renderNat n with
      | nil => exact absurd hL this
      | cons a t =>
        rw [List.length_append]
        simp only [List.length_cons] at ih ⊢
        omega

/-- Round trip for JSON number arrays. -/
theorem parseNatList_render (ns : List Nat) (rest : List Char) :
    parseNatList (renderBytes ns ++ rest) = some (ns, rest) := by
  cases ns with
  | nil =>
    rw [renderBytes, sepRenderNat, List.nil_append, List.cons_append,
      List.cons_append, List.nil_append, parseNatList]
    simp
  | cons n ns =>
    rw [renderBytes, List.cons_append, List.append_assoc, List.cons_append,
      List.nil_append, parseNatList]
    have hne : (n :: ns) ≠ [] := by simp
    have hhead : ¬ (sepRenderNat (n :: ns) ++ ']' :: rest).head? = some ']' := by
      intro hcon
      cases hL : sepRenderNat (n :: ns) with
      | nil =>
        have := sepRenderNat_length (n :: ns)
        rw [hL] at this
        simp at this
      | cons a t =>
        rw [hL, List.cons_append, List.head?_cons] at hcon
        have : a.isDigit := by
          refine sepRenderNat_head_digit (n :: ns) hne ?_
          rw [hL, List.head?_cons]
        injection hcon with hcon
        subst hcon
        exact absurd this (by decide)
    rw [if_neg hhead]
    refine parseNatElemsF_render (n :: ns) _ rest hne ?_
    have h1 := sepRenderNat_length (n :: ns)
    rw [List.length_append]
    omega

/-- Round trip for serde's `Vec<u8>` decoding. -/
theorem parseBytes_render (ns : List Nat) (rest : List Char)
    (h : ∀ b ∈ ns, b < 256) :
    parseBytes (renderBytes ns ++ rest) = some (ns, rest) := by
  rw [parseBytes, parseNatList_render]
  have hall : ns.all (fun n => n < 256) := by
    rw [List.all_eq_true]
    intro b hb
    simpa using h b hb
  trans (if ns.all (fun n => n < 256) then some (ns, rest) else none)
  · rfl
  rw [if_pos hall]

theorem renderPK_head (k : PublicKey) :
    ∃ t, renderPK k = '[' :: t := ⟨_, rfl⟩

/-- The element loop reads back a rendered, nonempty prekey list. -/
theorem parsePKElemsF_render (ks : List PublicKey) :
    ∀ fuel rest, ks ≠ [] → ks.length ≤ fuel → (∀ k ∈ ks, PKWF k) →
      parsePKElemsF fuel (sepRenderPK ks ++ ']' :: rest) = some (ks, rest) := by
  induction ks with
  | nil => intro _ _ hne _ _; exact absurd rfl hne
  | cons k ks ih =>
    intro fuel rest _ hfuel hwf
    cases fuel with
    | zero => simp at hfuel
    | succ fuel =>
      cases ks with
      | nil =>
        rw [sepRenderPK, renderPK, parsePKElemsF,
          parseBytes_render k.data (']' :: rest)
            (hwf k (List.mem_cons_self k []))]
        rfl
      | cons k2 ks2 =>
        rw [sepRenderPK, renderPK, List.append_assoc, List.cons_append,
          parsePKElemsF,
          parseBytes_render k.data (',' :: (sepRenderPK (k2 :: ks2) ++ ']' :: rest))
            (hwf k (List.mem_cons_self k _))]
        trans (match parsePKElemsF fuel (sepRenderPK (k2 :: ks2) ++ ']' :: rest) with
          | some (ks', r) => some (PublicKey.mk k.data :: ks', r)
          | none => none)
        · rfl
        rw [ih fuel rest (by simp) (by simpa using Nat.le_of_succ_le_succ hfuel)
          (fun x hx => hwf x (List.mem_cons_of_mem k hx))]

theorem sepRenderPK_length (ks : List PublicKey) :
    ks.length ≤ (sepRenderPK ks).length := by
  induction ks with
  | nil => simp [sepRenderPK]
  | cons k ks ih =>
    cases ks with
    | nil => rw [sepRenderPK, renderPK, renderBytes]; simp
    | cons k2 ks2 =>
      rw [sepRenderPK, renderPK, renderBytes]
      simp only [List.cons_append, List.length_cons, List.length_append] at ih ⊢
      omega

/-- Round trip for serde's `Vec<PublicKey>` decoding. -/
theorem parsePKList_render (ks : List PublicKey) (rest : List Char)
    (hwf : ∀ k ∈ ks, PKWF k) :
    parsePKList (renderPKList ks ++ rest) = some (ks, rest) := by
  cases ks with
  | nil =>
    rw [renderPKList, sepRenderPK, List.nil_append, List.cons_append,
      List.cons_append, List.nil_append, parsePKList]
    simp
  | cons k ks =>
    rw [renderPKList, List.cons_append, List.append_assoc, List.cons_append,
      List.nil_append, parsePKList]
    have hne : (k :: ks) ≠ [] := by simp
    have hhead : ¬ (sepRenderPK (k :: ks) ++ ']' :: rest).head? = some ']' := by
      intro hcon
      have hbrk : ∃ t, sepRenderPK (k :: ks) = '[' :: t := by
        cases ks with
        | nil => rw [sepRenderPK, renderPK, renderBytes]; exact ⟨_, rfl⟩
        | cons k2 ks2 =>
          rw [sepRenderPK, renderPK, renderBytes, List.cons_append]
          exact ⟨_, rfl⟩
      obtain ⟨t, ht⟩ := hbrk
      rw [ht, List.cons_append, List.head?_cons] at hcon
      cases hcon
    rw [if_neg hhead]
    refine parsePKElemsF_render (k :: ks) _ rest hne ?_ hwf
    have h1 := sepRenderPK_length (k :: ks)
    rw [List.length_append]
    omega

/-! ## The command catalogue (`src/server/command.rs`) -/

/-- The version triple carried by a `Hello` (`ArkeHello`,
`src/server/command.rs` lines 5-8). -/
structure ArkeHello where
  version : Nat × Nat × Nat
deriving DecidableEq, Repr

/-- The registration payload `NewUser` (`src/user.rs` lines 35-41).  Field
order matters: serde serializes struct fields in declaration order. -/
structure NewUser where
  username : List Char
  identity_key : PublicKey
  signed_prekey : PublicKey
  prekey_signature : List Nat
deriving DecidableEq, Repr

/-- `CommandError` (`src/server/command.rs` lines 45-51). -/
inductive CommandError where
  | serverError (msg : List Char)
  | invalidSignature (msg : List Char)
  | invalidKey
deriving DecidableEq, Repr

/-- `ArkeCommand` (`src/server/command.rs` lines 26-37). -/
inductive ArkeCommand where
  | hello (h : ArkeHello)
  | createUser (u : NewUser)
  | success
  | goodbye (e : Option CommandError)
  | error (e : CommandError)
  | insertPrekeys (ks : List PublicKey)
deriving DecidableEq, Repr

/-- `ArkeCommand::discriminant` (`src/server/command.rs` lines 39-43).  The
source reads the first byte of the value; for a `#[repr(u8)]` enum with
explicit discriminants `0..5` the Rust reference guarantees that byte is the
declared discriminant of the variant, which is what this embedding returns. -/
def discriminant : ArkeCommand → Nat
  | .hello _ => 0
  | .createUser _ => 1
  | .success => 2
  | .goodbye _ => 3
  | .error _ => 4
  | .insertPrekeys _ => 5

/-- A `Hello` payload whose components fit in `u8`, as the Rust
`(u8, u8, u8)` type guarantees. -/
def HelloWF (h : ArkeHello) : Prop :=
  h.version.1 < 256 ∧ h.version.2.1 < 256 ∧ h.version.2.2 < 256

/-- A `NewUser` whose byte vectors hold bytes, as `Vec<u8>` guarantees. -/
def NewUserWF (u : NewUser) : Prop :=
  PKWF u.identity_key ∧ PKWF u.signed_prekey ∧ ∀ b ∈ u.prekey_signature, b < 256

/-- A command constructible in the Rust type: all numeric payload fields fit
in `u8`. -/
def CmdWF : ArkeCommand → Prop
  | .hello h => HelloWF h
  | .createUser u => NewUserWF u
  | .insertPrekeys ks => ∀ k ∈ ks, PKWF k
  | _ => True

instance : DecidablePred HelloWF := by
  unfold HelloWF; infer_instance

instance : DecidablePred NewUserWF := by
  unfold NewUserWF; intro u; exact instDecidableAnd

instance : DecidablePred CmdWF := by
  intro c
  unfold CmdWF
  cases c <;> infer_instance

/-! ## The wire encoding of commands

serde's adjacently tagged representation (`#[serde(tag = "type", content =
"payload")]`): an object with the variant name under `"type"` and the
payload under `"payload"` (absent for unit variants).  The renderers below
produce exactly the compact text `serde_json::to_vec` emits; the parsers
accept it back, rejecting anything malformed as `serde_json::from_slice`
does. -/

/-- serde deserialization of a `u8` number. -/
def parseU8 (s : List Char) : Option (Nat × List Char) := do
  let p ← parseNat s
  if p.1 < 256 then pure p else none

/-- serde_json rendering of an `ArkeHello` payload. -/
def renderHello : ArkeHello → List Char
  | ⟨(a, b, c)⟩ =>
    lit "\x7b\"version\":[" ++ (renderNat a ++ (lit "," ++ (renderNat b ++
      (lit "," ++ (renderNat c ++ lit "]\x7d")))))

/-- Parse an `ArkeHello` payload object. -/
def parseHello (s : List Char) : Option (ArkeHello × List Char) := do
  let s1 ← expectChars (lit "\x7b\"version\":[") s
  let a ← parseU8 s1
  let s2 ← expectChars (lit ",") a.2
  let b ← parseU8 s2
  let s3 ← expectChars (lit ",") b.2
  let c ← parseU8 s3
  let s4 ← expectChars (lit "]\x7d") c.2
  pure (ArkeHello.mk (a.1, b.1, c.1), s4)

/-- serde_json rendering of a `NewUser` payload. -/
def renderNewUser : NewUser → List Char
  | ⟨u, ik, sp, ps⟩ =>
    lit "\x7b\"username\":\"" ++ (escapeString u ++ '"' ::
      (lit ",\"identity_key\":" ++ (renderPK ik ++
      (lit ",\"signed_prekey\":" ++ (renderPK sp ++
      (lit ",\"prekey_signature\":" ++ (renderBytes ps ++ lit "\x7d")))))))

/-- Parse a `NewUser` payload object. -/
def parseNewUser (s : List Char) : Option (NewUser × List Char) := do
  let s1 ← expectChars (lit "\x7b\"username\":\"") s
  let u ← parseStringBody s1
  let s2 ← expectChars (lit ",\"identity_key\":") u.2
  let ik ← parseBytes s2
  let s3 ← expectChars (lit ",\"signed_prekey\":") ik.2
  let sp ← parseBytes s3
  let s4 ← expectChars (lit ",\"prekey_signature\":") sp.2
  let ps ← parseBytes s4
  let s5 ← expectChars (lit "\x7d") ps.2
  pure (NewUser.mk u.1 (PublicKey.mk ik.1) (PublicKey.mk sp.1) ps.1, s5)

/-- serde_json rendering of a `CommandError` (itself adjacently tagged). -/
def renderCmdError : CommandError → List Char
  | .serverError m =>
    lit "\x7b\"type\":\"" ++ (escapeString (lit "ServerError") ++ '"' ::
      (lit ",\"payload\":\x7b\"msg\":\"" ++ (escapeString m ++ '"' :: lit "\x7d\x7d")))
  | .invalidSignature m =>
    lit "\x7b\"type\":\"" ++ (escapeString (lit "InvalidSignature") ++ '"' ::
      (lit ",\"payload\":\x7b\"msg\":\"" ++ (escapeString m ++ '"' :: lit "\x7d\x7d")))
  | .invalidKey =>
    lit "\x7b\"type\":\"" ++ (escapeString (lit "InvalidKey") ++ '"' :: lit "\x7d")

/-- Parse a `CommandError` object. -/
def parseCmdError (s : List Char) : Option (CommandError × List Char) := do
  let s1 ← expectChars (lit "\x7b\"type\":\"") s
  let tag ← parseStringBody s1
  if tag.1 = lit "ServerError" then
    let s2 ← expectChars (lit ",\"payload\":\x7b\"msg\":\"") tag.2
    let m ← parseStringBody s2
    let s3 ← expectChars (lit "\x7d\x7d") m.2
    pure (CommandError.serverError m.1, s3)
  else if tag.1 = lit "InvalidSignature" then
    let s2 ← expectChars (lit ",\"payload\":\x7b\"msg\":\"") tag.2
    let m ← parseStringBody s2
    let s3 ← expectChars (lit "\x7d\x7d") m.2
    pure (CommandError.invalidSignature m.1, s3)
  else if tag.1 = lit "InvalidKey" then
    let s2 ← expectChars (lit "\x7d") tag.2
    pure (CommandError.invalidKey, s2)
  else none

/-- serde_json rendering of an `ArkeCommand`, exactly the bytes
`serde_json::to_vec` produces in `ArkeServer::send_command`. -/
def renderCommand : ArkeCommand → List Char
  | .hello h =>
    lit "\x7b\"type\":\"" ++ (escapeString (lit "Hello") ++ '"' ::
      (lit ",\"payload\":" ++ (renderHello h ++ lit "\x7d")))
  | .createUser u =>
    lit "\x7b\"type\":\"" ++ (escapeString (lit "CreateUser") ++ '"' ::
      (lit ",\"payload\":" ++ (renderNewUser u ++ lit "\x7d")))
  | .success =>
    lit "\x7b\"type\":\"" ++ (escapeString (lit "Success") ++ '"' :: lit "\x7d")
  | .goodbye none =>
    lit "\x7b\"type\":\"" ++ (escapeString (lit "Goodbye") ++ '"' ::
      (lit ",\"payload\":" ++ lit "null\x7d"))
  | .goodbye (some e) =>
    lit "\x7b\"type\":\"" ++ (escapeString (lit "Goodbye") ++ '"' ::
      (lit ",\"payload\":" ++ (renderCmdError e ++ lit "\x7d")))
  | .error e =>
    lit "\x7b\"type\":\"" ++ (escapeString (lit "Error") ++ '"' ::
      (lit ",\"payload\":" ++ (renderCmdError e ++ lit "\x7d")))
  | .insertPrekeys ks =>
    lit "\x7b\"type\":\"" ++ (escapeString (lit "InsertPrekeys") ++ '"' ::
      (lit ",\"payload\":" ++ (renderPKList ks ++ lit "\x7d")))

/-- Parse one `ArkeCommand` object. -/
def parseCommand (s : List Char) : Option (ArkeCommand × List Char) := do
  let s1 ← expectChars (lit "\x7b\"type\":\"") s
  let tag ← parseStringBody s1
  if tag.1 = lit "Hello" then
    let s2 ← expectChars (lit ",\"payload\":") tag.2
    let h ← parseHello s2
    let s3 ← expectChars (lit "\x7d") h.2
    pure (ArkeCommand.hello h.1, s3)
  else if tag.1 = lit "CreateUser" then
    let s2 ← expectChars (lit ",\"payload\":") tag.2
    let u ← parseNewUser s2
    let s3 ← expectChars (lit "\x7d") u.2
    pure (ArkeCommand.createUser u.1, s3)
  else if tag.1 = lit "Success" then
    let s2 ← expectChars (lit "\x7d") tag.2
    pure (ArkeCommand.success, s2)
  else if tag.1 = lit "Goodbye" then
    let s2 ← expectChars (lit ",\"payload\":") tag.2
    match expectChars (lit "null\x7d") s2 with
    | some s3 => pure (ArkeCommand.goodbye none, s3)
    | none =>
      let e ← parseCmdError s2
      let s3 ← expectChars (lit "\x7d") e.2
      pure (ArkeCommand.goodbye (some e.1), s3)
  else if tag.1 = lit "Error" then
    let s2 ← expectChars (lit ",\"payload\":") tag.2
    let e ← parseCmdError s2
    let s3 ← expectChars (lit "\x7d") e.2
    pure (ArkeCommand.error e.1, s3)
  else if tag.1 = lit "InsertPrekeys" then
    let s2 ← expectChars (lit ",\"payload\":") tag.2
    let ks ← parsePKList s2
    let s3 ← expectChars (lit "\x7d") ks.2
    pure (ArkeCommand.insertPrekeys ks.1, s3)
  else none

/-- JSON whitespace, as `serde_json` skips around a value. -/
def isJsonWs (c : Char) : Bool :=
  c = ' ' ∨ c = '\t' ∨ c = '\n' ∨ c = '\r'

/-- A model of the deserialization the connection engine applies to a
received buffer — `serde_json::from_slice::<ArkeCommand>` restricted to
the compact form the encoder emits: one tagged object, possibly surrounded
by whitespace, and nothing else.  It is exact on the encoder's image
(`decodeCommand_sendBytes`); away from that image it is narrower than
serde's full reader (no interior whitespace, no field reordering, no
explicit `null` unit payloads, no surrogate-pair escapes), so theorems
that quantify over serde's own accept/reject boundary take the decoder as
a parameter (`handleConnectionWith`) rather than fixing this model. -/
def decodeCommand (s : List Char) : Option ArkeCommand :=
  match parseCommand (s.dropWhile isJsonWs) with
  | some (c, rest) => if rest.all isJsonWs then some c else none
  | none => none

/-- The bytes `ArkeServer::send_command` writes for a command: the
serde_json serialization followed by the pushed newline byte
(`src/server/mod.rs` lines 99-107). -/
def sendBytes (c : ArkeCommand) : List Char := renderCommand c ++ ['\n']

example :
    renderCommand (ArkeCommand.hello ⟨(0, 1, 2)⟩) =
      lit "\x7b\"type\":\"Hello\",\"payload\":\x7b\"version\":[0,1,2]\x7d\x7d" := by
  decide

example :
    sendBytes (ArkeCommand.goodbye none) =
      lit "\x7b\"type\":\"Goodbye\",\"payload\":null\x7d\n" := by
  decide

example :
    renderCommand (ArkeCommand.error (CommandError.serverError (lit "oops"))) =
      lit "\x7b\"type\":\"Error\",\"payload\":\x7b\"type\":\"ServerError\",\"payload\":\x7b\"msg\":\"oops\"\x7d\x7d\x7d" := by
  decide

example :
    renderCommand (ArkeCommand.insertPrekeys [PublicKey.mk [1, 2], PublicKey.mk [3]]) =
      lit "\x7b\"type\":\"InsertPrekeys\",\"payload\":[[1,2],[3]]\x7d" := by
  decide

/-! ## Round trip of the wire encoding -/

theorem head?_not_digit {c : Char} (hc : ¬ c.isDigit) {t : List Char} :
    ∀ d, ((c :: t).head? = some d) → ¬ d.isDigit := by
  intro d hd
  rw [List.head?_cons] at hd
  injection hd with hd
  subst hd
  exact hc

theorem parseU8_render (n : Nat) (rest : List Char) (hn : n < 256)
    (hrest : ∀ c, rest.head? = some c → ¬ c.isDigit) :
    parseU8 (renderNat n ++ rest) = some (n, rest) := by
  rw [parseU8, parseNat_render n rest hrest]
  simp only [Option.bind_eq_bind, Option.some_bind]
  rw [if_pos hn]
  rfl

theorem parseHello_render (h : ArkeHello) (hwf : HelloWF h) (rest : List Char) :
    parseHello (renderHello h ++ rest) = some (h, rest) := by
  obtain ⟨⟨a, b, c⟩⟩ := h
  obtain ⟨ha, hb, hc⟩ := hwf
  rw [renderHello, parseHello]
  simp only [List.append_assoc, List.cons_append]
  rw [expectChars_append]
  simp only [Option.bind_eq_bind, Option.some_bind]
  rw [parseU8_render a _ ha (by exact head?_not_digit (by decide))]
  simp only [Option.bind_eq_bind, Option.some_bind]
  rw [expectChars_append]
  simp only [Option.bind_eq_bind, Option.some_bind]
  rw [parseU8_render b _ hb (by exact head?_not_digit (by decide))]
  simp only [Option.bind_eq_bind, Option.some_bind]
  rw [expectChars_append]
  simp only [Option.bind_eq_bind, Option.some_bind]
  rw [parseU8_render c _ hc (by exact head?_not_digit (by decide))]
  simp only [Option.bind_eq_bind, Option.some_bind]
  rw [expectChars_append]
  simp only [Option.bind_eq_bind, Option.some_bind]
  rfl

theorem parseNewUser_render (u : NewUser) (hwf : NewUserWF u) (rest : List Char) :
    parseNewUser (renderNewUser u ++ rest) = some (u, rest) := by
  obtain ⟨un, ⟨ikd⟩, ⟨spd⟩, ps⟩ := u
  obtain ⟨hik, hsp, hps⟩ := hwf
  rw [renderNewUser, renderPK, renderPK, parseNewUser]
  simp only [List.append_assoc, List.cons_append]
  rw [expectChars_append]
  simp only [Option.bind_eq_bind, Option.some_bind]
  rw [parseStringBody_escape]
  simp only [Option.bind_eq_bind, Option.some_bind]
  rw [expectChars_append]
  simp only [Option.bind_eq_bind, Option.some_bind]
  rw [parseBytes_render ikd _ hik]
  simp only [Option.bind_eq_bind, Option.some_bind]
  rw [expectChars_append]
  simp only [Option.bind_eq_bind, Option.some_bind]
  rw [parseBytes_render spd _ hsp]
  simp only [Option.bind_eq_bind, Option.some_bind]
  rw [expectChars_append]
  simp only [Option.bind_eq_bind, Option.some_bind]
  rw [parseBytes_render ps _ hps]
  simp only [Option.bind_eq_bind, Option.some_bind]
  rw [expectChars_append]
  simp only [Option.bind_eq_bind, Option.some_bind]
  rfl

theorem parseCmdError_render (e : CommandError) (rest : List Char) :
    parseCmdError (renderCmdError e ++ rest) = some (e, rest) := by
  cases e with
  | serverError m =>
    rw [renderCmdError, parseCmdError]
    simp only [List.append_assoc, List.cons_append]
    rw [expectChars_append]
    simp only [Option.bind_eq_bind, Option.some_bind]
    rw [parseStringBody_escape]
    simp only [Option.bind_eq_bind, Option.some_bind, if_true, if_false]
    rw [expectChars_append]
    simp only [Option.bind_eq_bind, Option.some_bind]
    rw [parseStringBody_escape]
    simp only [Option.bind_eq_bind, Option.some_bind]
    rw [expectChars_append]
    simp only [Option.bind_eq_bind, Option.some_bind]
    rfl
  | invalidSignature m =>
    rw [renderCmdError, parseCmdError]
    simp only [List.append_assoc, List.cons_append]
    rw [expectChars_append]
    simp only [Option.bind_eq_bind, Option.some_bind]
    rw [parseStringBody_escape]
    simp only [Option.bind_eq_bind, Option.some_bind, if_true, if_false]
    rw [expectChars_append]
    simp only [Option.bind_eq_bind, Option.some_bind]
    rw [parseStringBody_escape]
    simp only [Option.bind_eq_bind, Option.some_bind]
    rw [expectChars_append]
    simp only [Option.bind_eq_bind, Option.some_bind]
    rfl
  | invalidKey =>
    rw [renderCmdError, parseCmdError]
    simp only [List.append_assoc, List.cons_append]
    rw [expectChars_append]
    simp only [Option.bind_eq_bind, Option.some_bind]
    rw [parseStringBody_escape]
    simp only [Option.bind_eq_bind, Option.some_bind, if_true, if_false]
    rw [expectChars_append]
    simp only [Option.bind_eq_bind, Option.some_bind]
    rfl

theorem expectChars_null_renderCmdError (e : CommandError) (X : List Char) :
    expectChars (lit "null\x7d") (renderCmdError e ++ X) = none := by
  cases e <;> rfl

/-- Round trip of the full command encoding: parsing the rendering of any
constructible command, followed by any remainder, recovers the command. -/
theorem parseCommand_render (c : ArkeCommand) (hwf : CmdWF c) (rest : List Char) :
    parseCommand (renderCommand c ++ rest) = some (c, rest) := by
  cases c with
  | hello h =>
    rw [renderCommand, parseCommand]
    simp only [List.append_assoc, List.cons_append]
    rw [expectChars_append]
    simp only [Option.bind_eq_bind, Option.some_bind]
    rw [parseStringBody_escape]
    simp only [Option.bind_eq_bind, Option.some_bind, if_true, if_false]
    rw [expectChars_append]
    simp only [Option.bind_eq_bind, Option.some_bind]
    rw [parseHello_render h hwf]
    simp only [Option.bind_eq_bind, Option.some_bind]
    rw [expectChars_append]
    simp only [Option.bind_eq_bind, Option.some_bind]
    rfl
  | createUser u =>
    rw [renderCommand, parseCommand]
    simp only [List.append_assoc, List.cons_append]
    rw [expectChars_append]
    simp only [Option.bind_eq_bind, Option.some_bind]
    rw [parseStringBody_escape]
    simp only [Option.bind_eq_bind, Option.some_bind, if_true, if_false]
    rw [expectChars_append]
    simp only [Option.bind_eq_bind, Option.some_bind]
    rw [parseNewUser_render u hwf]
    simp only [Option.bind_eq_bind, Option.some_bind]
    rw [expectChars_append]
    simp only [Option.bind_eq_bind, Option.some_bind]
    rfl
  | success =>
    rw [renderCommand, parseCommand]
    simp only [List.append_assoc, List.cons_append]
    rw [expectChars_append]
    simp only [Option.bind_eq_bind, Option.some_bind]
    rw [parseStringBody_escape]
    simp only [Option.bind_eq_bind, Option.some_bind, if_true, if_false]
    rw [expectChars_append]
    simp only [Option.bind_eq_bind, Option.some_bind]
    rfl
  | goodbye e =>
    cases e with
    | none =>
      rw [renderCommand, parseCommand]
      simp only [List.append_assoc, List.cons_append]
      rw [expectChars_append]
      simp only [Option.bind_eq_bind, Option.some_bind]
      rw [parseStringBody_escape]
      simp only [Option.bind_eq_bind, Option.some_bind, if_true, if_false]
      rw [expectChars_append]
      simp only [Option.bind_eq_bind, Option.some_bind]
      rw [expectChars_append]
      rfl
    | some err =>
      rw [renderCommand, parseCommand]
      simp only [List.append_assoc, List.cons_append]
      rw [expectChars_append]
      simp only [Option.bind_eq_bind, Option.some_bind]
      rw [parseStringBody_escape]
      simp only [Option.bind_eq_bind, Option.some_bind, if_true, if_false]
      rw [expectChars_append]
      simp only [Option.bind_eq_bind, Option.some_bind]
      rw [expectChars_null_renderCmdError]
      rw [parseCmdError_render]
      simp only [Option.bind_eq_bind, Option.some_bind]
      rw [expectChars_append]
      simp only [Option.bind_eq_bind, Option.some_bind]
      rfl
  | error err =>
    rw [renderCommand, parseCommand]
    simp only [List.append_assoc, List.cons_append]
    rw [expectChars_append]
    simp only [Option.bind_eq_bind, Option.some_bind]
    rw [parseStringBody_escape]
    simp only [Option.bind_eq_bind, Option.some_bind, if_true, if_false]
    rw [expectChars_append]
    simp only [Option.bind_eq_bind, Option.some_bind]
    rw [parseCmdError_render]
    simp only [Option.bind_eq_bind, Option.some_bind]
    rw [expectChars_append]
    simp only [Option.bind_eq_bind, Option.some_bind]
    rfl
  | insertPrekeys ks =>
    rw [renderCommand, parseCommand]
    simp only [List.append_assoc, List.cons_append]
    rw [expectChars_append]
    simp only [Option.bind_eq_bind, Option.some_bind]
    rw [parseStringBody_escape]
    simp only [Option.bind_eq_bind, Option.some_bind, if_true, if_false]
    rw [expectChars_append]
    simp only [Option.bind_eq_bind, Option.some_bind]
    rw [parsePKList_render ks _ hwf]
    simp only [Option.bind_eq_bind, Option.some_bind]
    rw [expectChars_append]
    simp only [Option.bind_eq_bind, Option.some_bind]
    rfl

theorem renderCommand_head (c : ArkeCommand) :
    ∃ t, renderCommand c = '\x7b' :: t := by
  rcases c with h | u | _ | (_ | e) | e | ks <;> exact ⟨_, rfl⟩

/-- Decoding the exact bytes `send_command` produces (serialization plus
the trailing newline) recovers the command. -/
theorem decodeCommand_sendBytes (c : ArkeCommand) (hwf : CmdWF c) :
    decodeCommand (sendBytes c) = some c := by
  obtain ⟨t, ht⟩ := renderCommand_head c
  have hdw : (renderCommand c ++ ['\n']).dropWhile isJsonWs
      = renderCommand c ++ ['\n'] := by
    rw [ht, List.cons_append, List.dropWhile_cons, if_neg (by decide)]
  rw [sendBytes, decodeCommand, hdw, parseCommand_render c hwf]
  rfl

/-! ## The connection engine

`ArkeServer::handle_connection` (`src/server/mod.rs` lines 52-97): loop
reading a buffer, decoding it, dispatching on the discriminant, and either
writing the response and looping, or breaking out; after the loop the
stream is shut down. -/

/-- The engine over the connection's sequence of transport reads,
abstracted over its decode collaborator — the role `serde_json::from_slice`
plays at `src/server/mod.rs` line 62.  The registry maps a discriminant to
its boxed stateful handler; a missing handler hits the `expect` on the
lookup, which aborts the connection task — the `none` result.  An
exhausted read list is the peer closing: the next read yields an empty
buffer, which fails to decode.  The `some` result carries the byte strings
written to the stream, in order, and whether the stream was shut down. -/
def handleConnectionWith {σ : Type}
    (decode : List Char → Option ArkeCommand)
    (handlers : Nat → Option (ArkeCommand → σ → ArkeCommand × σ)) :
    List (List Char) → σ → Option (List (List Char) × Bool)
  | [], _ => some ([sendBytes (ArkeCommand.goodbye none)], true)
  | buf :: reads, st =>
    match decode buf with
    | some cmd =>
      match handlers (discriminant cmd) with
      | none => none
      | some h =>
        let r := h cmd st
        match r.1 with
        | ArkeCommand.goodbye _ => some ([], true)
        | _ =>
          match handleConnectionWith decode handlers reads r.2 with
          | some (sends, closed) => some (sendBytes r.1 :: sends, closed)
          | none => none
    | none => some ([sendBytes (ArkeCommand.goodbye none)], true)

/-- The engine with its decoder fixed to the embedded `decodeCommand` —
`handle_connection` as compiled, exact on the encoder's image. -/
def handleConnection {σ : Type}
    (handlers : Nat → Option (ArkeCommand → σ → ArkeCommand × σ))
    (reads : List (List Char)) (st : σ) :
    Option (List (List Char) × Bool) :=
  handleConnectionWith decodeCommand handlers reads st

/-! ## User records and the one-time prekey pool (`src/user.rs`) -/

/-- `User` (`src/user.rs` lines 7-14).  As in the source, the one-time
prekey pool is stored as a JSON string. -/
structure User where
  username : List Char
  identity_key : PublicKey
  signed_prekey : PublicKey
  prekey_signature : List Nat
  one_time_prekeys : List Char
deriving DecidableEq, Repr

/-- `serde_json::from_str::<Vec<PublicKey>>` over a whole document. -/
def parsePoolDoc (s : List Char) : Option (List PublicKey) :=
  match parsePKList (s.dropWhile isJsonWs) with
  | some (ks, rest) => if rest.all isJsonWs then some ks else none
  | none => none

/-- `User::one_time_prekeys()` (`src/user.rs` lines 17-19): parse the pool
string; the source `unwrap`s the parse, so `none` is the abort case. -/
def User.one_time_prekeys_vec (u : User) : Option (List PublicKey) :=
  parsePoolDoc u.one_time_prekeys

/-- `User::insert_prekeys` (`src/user.rs` lines 21-25): parse the stored
pool, push the received keys in order, re-serialize. -/
def User.insert_prekeys (u : User) (keys : List PublicKey) : Option User :=
  match parsePoolDoc u.one_time_prekeys with
  | some stored =>
    some { u with one_time_prekeys := renderPKList (stored ++ keys) }
  | none => none

/-- `User::pop_prekey` (`src/user.rs` lines 27-32): parse the stored pool,
`Vec::pop` the last element, re-serialize, return the popped key. -/
def User.pop_prekey (u : User) : Option (Option PublicKey × User) :=
  match parsePoolDoc u.one_time_prekeys with
  | some stored =>
    some (stored.getLast?,
      { u with one_time_prekeys := renderPKList stored.dropLast })
  | none => none

/-- `impl From<NewUser> for User` (`src/user.rs` lines 43-53): copy the
bundle fields; the pool starts as the JSON of an empty vector. -/
def User.fromNewUser (nu : NewUser) : User :=
  { username := nu.username
    identity_key := nu.identity_key
    signed_prekey := nu.signed_prekey
    prekey_signature := nu.prekey_signature
    one_time_prekeys := renderPKList [] }

theorem parsePoolDoc_render (ks : List PublicKey) (hwf : ∀ k ∈ ks, PKWF k) :
    parsePoolDoc (renderPKList ks) = some ks := by
  have hdw : (renderPKList ks).dropWhile isJsonWs = renderPKList ks := by
    rw [renderPKList, List.dropWhile_cons, if_neg (by decide)]
  have hr := parsePKList_render ks [] hwf
  rw [List.append_nil] at hr
  rw [parsePoolDoc, hdw, hr]
  rfl

/-! ## Conversation state and the command handlers

The handler implementations are not among the library sources (the crate
root declares a `tests` module that is absent from the tree), so they are
modelled from the spec, against the in-source `CommandHandler` trait shape
(`handle` turns one command into one response command,
`src/server/command.rs` lines 59-62) and the in-source collaborators
(`State::new`, `PublicKey::ec_key`, `From<NewUser> for User`,
`User::insert_prekeys`). -/

/-- `State` (`src/server/state.rs` lines 3-8): hostname, handshake flag,
persistence handle.  The spec (§2, §3) also gives handlers the connection's
identity; `users` models the rows reachable through the `db` pool and
`identity` the optional authenticated identity. -/
structure ConvState where
  hostname : List Char
  handshake : Bool
  users : List User
  identity : Option (List Char)
deriving DecidableEq, Repr

/-- `State::new` (`src/server/state.rs` lines 10-18): the handshake flag
starts false. -/
def ConvState.new (hostname : List Char) (users : List User) : ConvState :=
  { hostname := hostname, handshake := false, users := users, identity := none }

/-- Modelled from the spec: the `Hello` handler (§4.2, §8), whose
implementation is missing from src/.  It compares the client's major and
minor version with the server's advertised version — explicit equality
checks, patch ignored — answering a mismatch with a `ServerError` and
leaving the handshake flag untouched, and a match with the server's own
version triple after setting the handshake flag. -/
def helloHandler (serverVersion : Nat × Nat × Nat) (st : ConvState)
    (h : ArkeHello) : ArkeCommand × ConvState :=
  if h.version.1 = serverVersion.1 ∧ h.version.2.1 = serverVersion.2.1 then
    (ArkeCommand.hello ⟨serverVersion⟩, { st with handshake := true })
  else
    (ArkeCommand.error (CommandError.serverError
      (lit "unsupported protocol version")), st)

/-- Modelled from the spec: the `CreateUser` registration handler (§4.4),
whose implementation is missing from src/.  The in-source pieces it relies
on are `PublicKey::ec_key` — PEM parsing through OpenSSL, an external
collaborator abstracted as the oracle `ecKey?` — signature verification
(oracle `verify`), the `From<NewUser> for User` conversion, and the storage
collaborator's `insert`, whose success is the `insertOk` flag.  The third
component counts the invocations of the storage collaborator. -/
def createUserHandler {K : Type} (ecKey? : PublicKey → Option K)
    (verify : K → PublicKey → List Nat → Bool) (insertOk : Bool)
    (st : ConvState) (nu : NewUser) : ArkeCommand × ConvState × Nat :=
  match ecKey? nu.identity_key with
  | none => (ArkeCommand.error CommandError.invalidKey, st, 0)
  | some k =>
    if verify k nu.signed_prekey nu.prekey_signature then
      if insertOk then
        (ArkeCommand.success,
          { st with users := st.users ++ [User.fromNewUser nu] }, 1)
      else
        (ArkeCommand.error (CommandError.serverError
          (lit "storage failure")), st, 1)
    else
      (ArkeCommand.error (CommandError.invalidSignature
        (lit "prekey signature rejected")), st, 0)

/-- Modelled from the spec: the `InsertPrekeys` handler (§4.5), whose
implementation is missing from src/.  It appends the received keys, in
order, to the stored pool of the connection's user through the in-source
`User::insert_prekeys`; without an identified user there is nothing to
append to, which the propagation policy (§7) maps to an in-band
`ServerError`.  `none` is the language-level abort of the `unwrap` inside
`User::insert_prekeys`. -/
def insertPrekeysHandler (st : ConvState) (ks : List PublicKey) :
    Option (ArkeCommand × ConvState) :=
  match st.identity with
  | none =>
    some (ArkeCommand.error (CommandError.serverError (lit "no identity")), st)
  | some name =>
    match st.users.find? (fun u => u.username == name) with
    | none =>
      some (ArkeCommand.error (CommandError.serverError (lit "unknown user")), st)
    | some u =>
      match u.insert_prekeys ks with
      | none => none
      | some u2 =>
        some (ArkeCommand.success,
          { st with users :=
              st.users.map (fun v => if v.username == name then u2 else v) })

/-- Modelled from the spec: the registered handlers behind the in-source
`CommandHandler::handle` signature (§4.3) — one command in, one response
command out, state mutated in place.  Commands a handler does not expect
are answered in-band (§4.2 delegates protocol violations to each handler's
own expected-pattern check); a client `Goodbye` is answered with a
farewell, which makes the engine close the connection.  The `Option` is the
language-level fault channel; the only possibly-aborting operation reached
from here is the `unwrap` inside `User::insert_prekeys`. -/
def handle {K : Type} (ecKey? : PublicKey → Option K)
    (verify : K → PublicKey → List Nat → Bool) (insertOk : Bool)
    (serverVersion : Nat × Nat × Nat) (st : ConvState) :
    ArkeCommand → Option (ArkeCommand × ConvState)
  | ArkeCommand.hello h => some (helloHandler serverVersion st h)
  | ArkeCommand.createUser nu =>
    let r := createUserHandler ecKey? verify insertOk st nu
    some (r.1, r.2.1)
  | ArkeCommand.insertPrekeys ks => insertPrekeysHandler st ks
  | ArkeCommand.goodbye _ => some (ArkeCommand.goodbye none, st)
  | ArkeCommand.success =>
    some (ArkeCommand.error (CommandError.serverError
      (lit "unexpected command")), st)
  | ArkeCommand.error _ =>
    some (ArkeCommand.error (CommandError.serverError
      (lit "unexpected command")), st)

/-- A failure is reported in-band when it travels as `Error(..)` or
`Goodbye(Some(..))` (§4.3, §7). -/
def inBand : ArkeCommand → Prop
  | ArkeCommand.error _ => True
  | ArkeCommand.goodbye (some _) => True
  | _ => False

/-- The collaborator failures a command's processing can encounter (§7):
for `CreateUser`, key parsing, signature verification, or persistence; for
`InsertPrekeys`, a missing identity or unknown user. -/
def collabFailure {K : Type} (ecKey? : PublicKey → Option K)
    (verify : K → PublicKey → List Nat → Bool) (insertOk : Bool)
    (st : ConvState) : ArkeCommand → Prop
  | ArkeCommand.createUser nu =>
    ecKey? nu.identity_key = none ∨
    (∃ k, ecKey? nu.identity_key = some k ∧
      verify k nu.signed_prekey nu.prekey_signature = false) ∨
    insertOk = false
  | ArkeCommand.insertPrekeys _ =>
    st.identity = none ∨
    (∃ name, st.identity = some name ∧
      st.users.find? (fun u => u.username == name) = none)
  | _ => False

/-- Every stored user's pool string parses back — the invariant every pool
write in this development maintains. -/
def StoreWF (st : ConvState) : Prop :=
  ∀ u ∈ st.users, (parsePoolDoc u.one_time_prekeys).isSome

instance (st : ConvState) : Decidable (StoreWF st) := by
  unfold StoreWF; infer_instance

/-! ## No raw newline ever appears inside a rendered command

serde_json escapes every control character, so the newline `send_command`
appends is the only newline byte in the message. -/

theorem newline_not_mem_renderNat (n : Nat) : '\n' ∉ renderNat n := by
  intro hmem
  have := renderNatAux_digits (n + 1) n [] (by simp) '\n' hmem
  exact absurd this (by decide)

theorem escSimple?_val {c e : Char} (h : escSimple? c = some e) : e ≠ '\n' := by
  rw [escSimple?] at h
  split_ifs at h <;>
    first
    | (injection h with h; subst h; decide)
    | exact Option.noConfusion h

theorem digitChar_ne_newline {d : Nat} (h : d < 16) : Nat.digitChar d ≠ '\n' := by
  interval_cases d <;> decide

theorem newline_not_mem_escapeChar (c : Char) : '\n' ∉ escapeChar c := by
  rw [escapeChar]
  cases hesc : escSimple? c with
  | some e =>
    intro hmem
    rcases List.mem_cons.mp hmem with h1 | h1
    · exact absurd h1.symm (by decide)
    · rcases List.mem_cons.mp h1 with h2 | h2
      · exact absurd h2.symm (escSimple?_val hesc)
      · cases h2
  | none =>
    by_cases hctl : c.toNat < 32
    · simp only [hctl, if_true]
      intro hmem
      simp only [List.mem_cons, List.not_mem_nil, or_false] at hmem
      rcases hmem with h | h | h | h | h | h
      all_goals first
      | exact absurd h (by decide)
      | exact absurd h.symm (digitChar_ne_newline (by omega))
    · simp only [hctl, if_false]
      intro hmem
      simp only [List.mem_cons, List.not_mem_nil, or_false] at hmem
      subst hmem
      exact hctl (by decide)

theorem newline_not_mem_escapeString (s : List Char) :
    '\n' ∉ escapeString s := by
  induction s with
  | nil => simp [escapeString]
  | cons c cs ih =>
    rw [escapeString]
    intro hmem
    rcases List.mem_append.mp hmem with h | h
    · exact newline_not_mem_escapeChar c h
    · exact ih h

theorem newline_not_mem_sepRenderNat (ns : List Nat) :
    '\n' ∉ sepRenderNat ns := by
  induction ns with
  | nil => simp [sepRenderNat]
  | cons n ns ih =>
    cases ns with
    | nil => rw [sepRenderNat]; exact newline_not_mem_renderNat n
    | cons m ms =>
      rw [sepRenderNat]
      intro hmem
      rcases List.mem_append.mp hmem with h | h
      · exact newline_not_mem_renderNat n h
      · rcases List.mem_cons.mp h with h1 | h1
        · exact absurd h1 (by decide)
        · exact ih h1

theorem newline_not_mem_renderBytes (ns : List Nat) :
    '\n' ∉ renderBytes ns := by
  rw [renderBytes]
  intro hmem
  rcases List.mem_cons.mp hmem with h | h
  · exact absurd h (by decide)
  · rcases List.mem_append.mp h with h1 | h1
    · exact newline_not_mem_sepRenderNat ns h1
    · simp at h1

theorem newline_not_mem_sepRenderPK (ks : List PublicKey) :
    '\n' ∉ sepRenderPK ks := by
  induction ks with
  | nil => simp [sepRenderPK]
  | cons k ks ih =>
    cases ks with
    | nil => rw [sepRenderPK, renderPK]; exact newline_not_mem_renderBytes k.data
    | cons k2 ks2 =>
      rw [sepRenderPK, renderPK]
      intro hmem
      rcases List.mem_append.mp hmem with h | h
      · exact newline_not_mem_renderBytes k.data h
      · rcases List.mem_cons.mp h with h1 | h1
        · exact absurd h1 (by decide)
        · exact ih h1

theorem newline_not_mem_renderPKList (ks : List PublicKey) :
    '\n' ∉ renderPKList ks := by
  rw [renderPKList]
  intro hmem
  rcases List.mem_cons.mp hmem with h | h
  · exact absurd h (by decide)
  · rcases List.mem_append.mp h with h1 | h1
    · exact newline_not_mem_sepRenderPK ks h1
    · simp at h1

theorem newline_not_mem_renderHello (h : ArkeHello) :
    '\n' ∉ renderHello h := by
  obtain ⟨⟨a, b, c⟩⟩ := h
  rw [renderHello]
  intro hmem
  simp only [List.mem_append, List.mem_cons] at hmem
  rcases hmem with h1 | h1 | h1 | h1 | h1 | h1 | h1
  · exact absurd h1 (by decide)
  · exact newline_not_mem_renderNat a h1
  · exact absurd h1 (by decide)
  · exact newline_not_mem_renderNat b h1
  · exact absurd h1 (by decide)
  · exact newline_not_mem_renderNat c h1
  · exact absurd h1 (by decide)

theorem newline_not_mem_renderNewUser (u : NewUser) :
    '\n' ∉ renderNewUser u := by
  obtain ⟨un, ik, sp, ps⟩ := u
  rw [renderNewUser]
  intro hmem
  simp only [List.mem_append, List.mem_cons] at hmem
  rcases hmem with h1 | h1 | h1 | h1 | h1 | h1 | h1 | h1 | h1 | h1
  · exact absurd h1 (by decide)
  · exact newline_not_mem_escapeString un h1
  · exact absurd h1 (by decide)
  · exact absurd h1 (by decide)
  · exact newline_not_mem_renderBytes ik.data h1
  · exact absurd h1 (by decide)
  · exact newline_not_mem_renderBytes sp.data h1
  · exact absurd h1 (by decide)
  · exact newline_not_mem_renderBytes ps h1
  · exact absurd h1 (by decide)

theorem newline_not_mem_renderCmdError (e : CommandError) :
    '\n' ∉ renderCmdError e := by
  cases e with
  | serverError m =>
    rw [renderCmdError]
    intro hmem
    simp only [List.mem_append, List.mem_cons] at hmem
    rcases hmem with h1 | h1 | h1 | h1 | h1 | h1 | h1
    · exact absurd h1 (by decide)
    · exact newline_not_mem_escapeString _ h1
    · exact absurd h1 (by decide)
    · exact absurd h1 (by decide)
    · exact newline_not_mem_escapeString m h1
    · exact absurd h1 (by decide)
    · exact absurd h1 (by decide)
  | invalidSignature m =>
    rw [renderCmdError]
    intro hmem
    simp only [List.mem_append, List.mem_cons] at hmem
    rcases hmem with h1 | h1 | h1 | h1 | h1 | h1 | h1
    · exact absurd h1 (by decide)
    · exact newline_not_mem_escapeString _ h1
    · exact absurd h1 (by decide)
    · exact absurd h1 (by decide)
    · exact newline_not_mem_escapeString m h1
    · exact absurd h1 (by decide)
    · exact absurd h1 (by decide)
  | invalidKey => decide

theorem newline_not_mem_renderCommand (c : ArkeCommand) :
    '\n' ∉ renderCommand c := by
  cases c with
  | hello h =>
    rw [renderCommand]
    intro hmem
    simp only [List.mem_append, List.mem_cons] at hmem
    rcases hmem with h1 | h1 | h1 | h1 | h1 | h1
    · exact absurd h1 (by decide)
    · exact absurd h1 (by decide)
    · exact absurd h1 (by decide)
    · exact absurd h1 (by decide)
    · exact newline_not_mem_renderHello h h1
    · exact absurd h1 (by decide)
  | createUser u =>
    rw [renderCommand]
    intro hmem
    simp only [List.mem_append, List.mem_cons] at hmem
    rcases hmem with h1 | h1 | h1 | h1 | h1 | h1
    · exact absurd h1 (by decide)
    · exact absurd h1 (by decide)
    · exact absurd h1 (by decide)
    · exact absurd h1 (by decide)
    · exact newline_not_mem_renderNewUser u h1
    · exact absurd h1 (by decide)
  | success => decide
  | goodbye e =>
    cases e with
    | none => decide
    | some err =>
      rw [renderCommand]
      intro hmem
      simp only [List.mem_append, List.mem_cons] at hmem
      rcases hmem with h1 | h1 | h1 | h1 | h1 | h1
      · exact absurd h1 (by decide)
      · exact absurd h1 (by decide)
      · exact absurd h1 (by decide)
      · exact absurd h1 (by decide)
      · exact newline_not_mem_renderCmdError err h1
      · exact absurd h1 (by decide)
  | error err =>
    rw [renderCommand]
    intro hmem
    simp only [List.mem_append, List.mem_cons] at hmem
    rcases hmem with h1 | h1 | h1 | h1 | h1 | h1
    · exact absurd h1 (by decide)
    · exact absurd h1 (by decide)
    · exact absurd h1 (by decide)
    · exact absurd h1 (by decide)
    · exact newline_not_mem_renderCmdError err h1
    · exact absurd h1 (by decide)
  | insertPrekeys ks =>
    rw [renderCommand]
    intro hmem
    simp only [List.mem_append, List.mem_cons] at hmem
    rcases hmem with h1 | h1 | h1 | h1 | h1 | h1
    · exact absurd h1 (by decide)
    · exact absurd h1 (by decide)
    · exact absurd h1 (by decide)
    · exact absurd h1 (by decide)
    · exact newline_not_mem_renderPKList ks h1
    · exact absurd h1 (by decide)

/-! ## User operation helper lemmas -/

theorem insert_prekeys_parsed (u : User) {stored : List PublicKey}
    (keys : List PublicKey)
    (h : parsePoolDoc u.one_time_prekeys = some stored) :
    u.insert_prekeys keys =
      some { u with one_time_prekeys := renderPKList (stored ++ keys) } := by
  rw [User.insert_prekeys, h]

theorem pop_prekey_render (u : User) (ks : List PublicKey)
    (hwf : ∀ k ∈ ks, PKWF k) (hu : u.one_time_prekeys = renderPKList ks) :
    u.pop_prekey = some (ks.getLast?,
      { u with one_time_prekeys := renderPKList ks.dropLast }) := by
  rw [User.pop_prekey, hu, parsePoolDoc_render ks hwf]

/-- The engine drops a handler-returned `Goodbye`: when the decoded
command's handler answers `Goodbye(_)`, the loop breaks without calling
`send_command` and the stream is shut down — nothing is written. -/
theorem handleConnection_goodbye {σ : Type}
    (handlers : Nat → Option (ArkeCommand → σ → ArkeCommand × σ))
    (buf : List Char) (reads : List (List Char)) (st : σ)
    (cmd : ArkeCommand) (hh : ArkeCommand → σ → ArkeCommand × σ)
    (e : Option CommandError)
    (hdec : decodeCommand buf = some cmd)
    (hreg : handlers (discriminant cmd) = some hh)
    (hres : (hh cmd st).1 = ArkeCommand.goodbye e) :
    handleConnection handlers (buf :: reads) st = some ([], true) := by
  simp only [handleConnection, handleConnectionWith, hdec, hreg, hres]

/-! ## The claims -/

/-- C1: for every constructible value of the `ArkeCommand` catalogue,
decoding the bytes `send_command` produces for it — the tagged JSON
serialization with its trailing newline byte — yields the command again:
`decode (encode c) = c`. -/
theorem c1_decode_encode_round_trip (c : ArkeCommand) (hwf : CmdWF c) :
    decodeCommand (sendBytes c) = some c :=
  decodeCommand_sendBytes c hwf

/-- Witness for C1 at a `CreateUser` bundle whose username exercises the
escaping (a quote and a newline). -/
theorem c1_round_trip_witness :
    CmdWF (ArkeCommand.createUser (NewUser.mk (lit "a\"b\n")
      (PublicKey.mk [1, 255]) (PublicKey.mk [0]) [7, 8])) ∧
    decodeCommand (sendBytes (ArkeCommand.createUser (NewUser.mk (lit "a\"b\n")
      (PublicKey.mk [1, 255]) (PublicKey.mk [0]) [7, 8]))) =
      some (ArkeCommand.createUser (NewUser.mk (lit "a\"b\n")
        (PublicKey.mk [1, 255]) (PublicKey.mk [0]) [7, 8])) :=
  ⟨by decide, c1_decode_encode_round_trip _ (by decide)⟩

/-- C2: evaluation of the engine on a connection that decodes a `Success`
whose handler answers `Goodbye(None)`: the engine writes nothing at all
(the farewell is never sent — the loop breaks before `send_command`) and
shuts the stream down, although the claim and the code's own log line say
the farewell is written exactly once. -/
theorem c2_goodbye_not_written :
    handleConnection (σ := Unit)
      (fun _ => some (fun _ st => (ArkeCommand.goodbye none, st)))
      [lit "\x7b\"type\":\"Success\"\x7d"] () = some ([], true) := by
  rfl

/-- C3: the `CreateUser` registration handler checks in order: an
unparsable identity key answers `Error(InvalidKey)` with the storage
collaborator never invoked; a parsable key whose prekey signature fails
verification answers `Error(InvalidSignature)` and persists nothing; a
valid bundle persists exactly one `UserRecord`, with an empty one-time
prekey pool, and answers `Success`. -/
theorem c3_registration_order {K : Type} (ecKey? : PublicKey → Option K)
    (verify : K → PublicKey → List Nat → Bool) (insertOk : Bool)
    (st : ConvState) (nu : NewUser) :
    (ecKey? nu.identity_key = none →
      createUserHandler ecKey? verify insertOk st nu =
        (ArkeCommand.error CommandError.invalidKey, st, 0)) ∧
    (∀ k, ecKey? nu.identity_key = some k →
      verify k nu.signed_prekey nu.prekey_signature = false →
      ∃ m, createUserHandler ecKey? verify insertOk st nu =
        (ArkeCommand.error (CommandError.invalidSignature m), st, 0)) ∧
    (∀ k, ecKey? nu.identity_key = some k →
      verify k nu.signed_prekey nu.prekey_signature = true →
      insertOk = true →
      createUserHandler ecKey? verify insertOk st nu =
        (ArkeCommand.success,
          { st with users := st.users ++ [User.fromNewUser nu] }, 1) ∧
      (User.fromNewUser nu).one_time_prekeys_vec = some []) := by
  refine ⟨?_, ?_, ?_⟩
  · intro hek
    simp only [createUserHandler, hek]
  · intro k hek hv
    refine ⟨lit "prekey signature rejected", ?_⟩
    simp [createUserHandler, hek, hv]
  · intro k hek hv hins
    constructor
    · simp [createUserHandler, hek, hv, hins]
    · exact parsePoolDoc_render [] (by simp)

/-- Witness for C3: with a parser oracle that rejects everything, the
handler answers `Error(InvalidKey)` and does not touch storage. -/
theorem c3_registration_order_witness :
    (fun (_ : PublicKey) => (none : Option Unit)) (NewUser.mk (lit "bob")
      (PublicKey.mk [9]) (PublicKey.mk [8]) [7]).identity_key = none ∧
    createUserHandler (fun (_ : PublicKey) => (none : Option Unit))
      (fun _ _ _ => true) true (ConvState.new (lit "srv") [])
      (NewUser.mk (lit "bob") (PublicKey.mk [9]) (PublicKey.mk [8]) [7]) =
      (ArkeCommand.error CommandError.invalidKey,
        ConvState.new (lit "srv") [], 0) :=
  ⟨rfl, (c3_registration_order (fun _ => (none : Option Unit))
    (fun _ _ _ => true) true (ConvState.new (lit "srv") [])
    (NewUser.mk (lit "bob") (PublicKey.mk [9]) (PublicKey.mk [8]) [7])).1 rfl⟩

/-- C4: the `Hello` handler compares the client's major and minor version
with the server's advertised version, patch ignored: a mismatch answers a
`ServerError` and leaves the conversation state — in particular the
handshake flag — unchanged (so a flag that was false stays false); a match
sets the handshake flag and answers `Hello` with the server's own version
triple. -/
theorem c4_handshake_gate (sv : Nat × Nat × Nat) (st : ConvState)
    (h : ArkeHello) :
    ((h.version.1 ≠ sv.1 ∨ h.version.2.1 ≠ sv.2.1) →
      (∃ m, (helloHandler sv st h).1 =
        ArkeCommand.error (CommandError.serverError m)) ∧
      (helloHandler sv st h).2 = st) ∧
    ((h.version.1 = sv.1 ∧ h.version.2.1 = sv.2.1) →
      (helloHandler sv st h).2.handshake = true ∧
      (helloHandler sv st h).1 = ArkeCommand.hello ⟨sv⟩) := by
  constructor
  · intro hmis
    have hcond : ¬ (h.version.1 = sv.1 ∧ h.version.2.1 = sv.2.1) := by
      rcases hmis with h1 | h1 <;> exact fun hand => h1 (by simp [hand.1, hand.2])
    rw [helloHandler, if_neg hcond]
    exact ⟨⟨_, rfl⟩, rfl⟩
  · intro hmatch
    rw [helloHandler, if_pos hmatch]
    exact ⟨rfl, rfl⟩

/-- Witness for C4: version (9,1,2) against server (0,1,2) is rejected with
an unchanged state, and version (0,1,9) against (0,1,2) — same major and
minor, different patch — completes the handshake. -/
theorem c4_handshake_gate_witness :
    ((∃ m, (helloHandler (0, 1, 2) (ConvState.new (lit "srv") [])
        (ArkeHello.mk (9, 1, 2))).1 =
        ArkeCommand.error (CommandError.serverError m)) ∧
      (helloHandler (0, 1, 2) (ConvState.new (lit "srv") [])
        (ArkeHello.mk (9, 1, 2))).2 = ConvState.new (lit "srv") []) ∧
    ((helloHandler (0, 1, 2) (ConvState.new (lit "srv") [])
        (ArkeHello.mk (0, 1, 9))).2.handshake = true ∧
      (helloHandler (0, 1, 2) (ConvState.new (lit "srv") [])
        (ArkeHello.mk (0, 1, 9))).1 = ArkeCommand.hello ⟨(0, 1, 2)⟩) :=
  ⟨(c4_handshake_gate (0, 1, 2) (ConvState.new (lit "srv") [])
      (ArkeHello.mk (9, 1, 2))).1 (Or.inl (by decide)),
   (c4_handshake_gate (0, 1, 2) (ConvState.new (lit "srv") [])
      (ArkeHello.mk (0, 1, 9))).2 ⟨rfl, rfl⟩⟩

/-- C5: on a user whose one-time prekey pool is empty, inserting `[A,B,C]`
and popping twice yields `C` then `B`, leaving exactly `[A]`; popping an
empty pool yields no key and leaves the pool empty. -/
theorem c5_prekey_pool :
    (∀ (u : User) (A B C : PublicKey), PKWF A → PKWF B → PKWF C →
      u.one_time_prekeys_vec = some [] →
      ∃ u1 u2 u3,
        u.insert_prekeys [A, B, C] = some u1 ∧
        u1.pop_prekey = some (some C, u2) ∧
        u2.pop_prekey = some (some B, u3) ∧
        u3.one_time_prekeys_vec = some [A]) ∧
    (∀ u : User, u.one_time_prekeys_vec = some [] →
      ∃ u4, u.pop_prekey = some (none, u4) ∧
        u4.one_time_prekeys_vec = some []) := by
  constructor
  · intro u A B C hA hB hC hpool
    rw [User.one_time_prekeys_vec] at hpool
    have hwf3 : ∀ k ∈ [A, B, C], PKWF k := by
      intro k hk
      rcases List.mem_cons.mp hk with rfl | hk
      · exact hA
      rcases List.mem_cons.mp hk with rfl | hk
      · exact hB
      rcases List.mem_cons.mp hk with rfl | hk
      · exact hC
      cases hk
    have hwf2 : ∀ k ∈ [A, B], PKWF k := by
      intro k hk
      rcases List.mem_cons.mp hk with rfl | hk
      · exact hA
      rcases List.mem_cons.mp hk with rfl | hk
      · exact hB
      cases hk
    have hwf1 : ∀ k ∈ [A], PKWF k := by
      intro k hk
      rcases List.mem_cons.mp hk with rfl | hk
      · exact hA
      cases hk
    have h1 := insert_prekeys_parsed u [A, B, C] hpool
    rw [List.nil_append] at h1
    refine ⟨{ u with one_time_prekeys := renderPKList [A, B, C] },
      { u with one_time_prekeys := renderPKList [A, B] },
      { u with one_time_prekeys := renderPKList [A] },
      h1, ?_, ?_, ?_⟩
    · have h2 := pop_prekey_render
        { u with one_time_prekeys := renderPKList [A, B, C] } [A, B, C]
        hwf3 rfl
      rw [h2]
      rfl
    · have h3 := pop_prekey_render
        { u with one_time_prekeys := renderPKList [A, B] } [A, B] hwf2 rfl
      rw [h3]
      rfl
    · exact parsePoolDoc_render [A] hwf1
  · intro u hpool
    rw [User.one_time_prekeys_vec] at hpool
    refine ⟨{ u with one_time_prekeys := renderPKList [] }, ?_, ?_⟩
    · rw [User.pop_prekey, hpool]
      rfl
    · exact parsePoolDoc_render [] (by simp)

/-- Witness for C5 on a fresh user with the literal pool `[]`. -/
theorem c5_prekey_pool_witness :
    ∃ u1 u2 u3,
      (User.mk (lit "alice") (PublicKey.mk [1]) (PublicKey.mk [2]) [3]
        (lit "[]")).insert_prekeys
          [PublicKey.mk [10], PublicKey.mk [20], PublicKey.mk [30]] = some u1 ∧
      u1.pop_prekey = some (some (PublicKey.mk [30]), u2) ∧
      u2.pop_prekey = some (some (PublicKey.mk [20]), u3) ∧
      u3.one_time_prekeys_vec = some [PublicKey.mk [10]] :=
  c5_prekey_pool.1 (User.mk (lit "alice") (PublicKey.mk [1])
      (PublicKey.mk [2]) [3] (lit "[]"))
    (PublicKey.mk [10]) (PublicKey.mk [20]) (PublicKey.mk [30])
    (by decide) (by decide) (by decide) (by decide)

/-- C6: the discriminant of every constructible command is the stable
routing value of its variant — Hello 0, CreateUser 1, Success 2, Goodbye 3,
Error 4, InsertPrekeys 5 — and depends only on the variant, never on the
payload. -/
theorem c6_discriminant_stable :
    (∀ h, discriminant (ArkeCommand.hello h) = 0) ∧
    (∀ u, discriminant (ArkeCommand.createUser u) = 1) ∧
    discriminant ArkeCommand.success = 2 ∧
    (∀ e, discriminant (ArkeCommand.goodbye e) = 3) ∧
    (∀ e, discriminant (ArkeCommand.error e) = 4) ∧
    (∀ ks, discriminant (ArkeCommand.insertPrekeys ks) = 5) ∧
    (∀ p q, discriminant (ArkeCommand.hello p) =
      discriminant (ArkeCommand.hello q)) ∧
    (∀ p q, discriminant (ArkeCommand.createUser p) =
      discriminant (ArkeCommand.createUser q)) ∧
    (∀ p q, discriminant (ArkeCommand.goodbye p) =
      discriminant (ArkeCommand.goodbye q)) ∧
    (∀ p q, discriminant (ArkeCommand.error p) =
      discriminant (ArkeCommand.error q)) ∧
    (∀ p q, discriminant (ArkeCommand.insertPrekeys p) =
      discriminant (ArkeCommand.insertPrekeys q)) :=
  ⟨fun _ => rfl, fun _ => rfl, rfl, fun _ => rfl, fun _ => rfl, fun _ => rfl,
   fun _ _ => rfl, fun _ _ => rfl, fun _ _ => rfl, fun _ _ => rfl,
   fun _ _ => rfl⟩

/-- C7: on any buffer that fails to decode, the engine writes exactly the
`Goodbye(None)` message and shuts the transport down; the result is a
normal return (`some`), not the aborting (`none`) path — the process does
not terminate.  The theorem quantifies over the decode collaborator, so it
holds for the exact failure set of `serde_json::from_slice` itself — the
engine never inspects the rejected buffer, only the fact of rejection. -/
theorem c7_decode_failure_goodbye {σ : Type}
    (decode : List Char → Option ArkeCommand)
    (handlers : Nat → Option (ArkeCommand → σ → ArkeCommand × σ))
    (buf : List Char) (reads : List (List Char)) (st : σ)
    (h : decode buf = none) :
    handleConnectionWith decode handlers (buf :: reads) st =
      some ([sendBytes (ArkeCommand.goodbye none)], true) := by
  rw [handleConnectionWith, h]

/-- Witness for C7: the embedded decoder at the zero-length buffer, which
`serde_json::from_slice` also rejects. -/
theorem c7_decode_failure_witness :
    decodeCommand (lit "") = none ∧
    handleConnectionWith (σ := Unit) decodeCommand (fun _ => none)
      [lit ""] () = some ([sendBytes (ArkeCommand.goodbye none)], true) :=
  ⟨by decide,
   c7_decode_failure_goodbye (σ := Unit) decodeCommand (fun _ => none)
     (lit "") [] () (by decide)⟩

/-- C8: for every conversation state (with parseable stored pools) and
every command, `handle` returns a command — the `none` fault channel is
never taken — and whenever the processing ran into a collaborator failure
the returned command is an in-band `Error(..)` or `Goodbye(Some(..))`. -/
theorem c8_handle_total_in_band {K : Type} (ecKey? : PublicKey → Option K)
    (verify : K → PublicKey → List Nat → Bool) (insertOk : Bool)
    (sv : Nat × Nat × Nat) (st : ConvState) (cmd : ArkeCommand)
    (hst : StoreWF st) :
    ∃ r st2, handle ecKey? verify insertOk sv st cmd = some (r, st2) ∧
      (collabFailure ecKey? verify insertOk st cmd → inBand r) := by
  cases cmd with
  | hello h => exact ⟨_, _, rfl, fun hf => False.elim hf⟩
  | createUser nu =>
    cases hek : ecKey? nu.identity_key with
    | none =>
      refine ⟨ArkeCommand.error CommandError.invalidKey, st, ?_, fun _ => trivial⟩
      simp [handle, createUserHandler, hek]
    | some k =>
      cases hv : verify k nu.signed_prekey nu.prekey_signature with
      | false =>
        refine ⟨ArkeCommand.error (CommandError.invalidSignature
          (lit "prekey signature rejected")), st, ?_, fun _ => trivial⟩
        simp [handle, createUserHandler, hek, hv]
      | true =>
        cases insertOk with
        | false =>
          refine ⟨ArkeCommand.error (CommandError.serverError
            (lit "storage failure")), st, ?_, fun _ => trivial⟩
          simp [handle, createUserHandler, hek, hv]
        | true =>
          refine ⟨ArkeCommand.success,
            { st with users := st.users ++ [User.fromNewUser nu] }, ?_, ?_⟩
          · simp [handle, createUserHandler, hek, hv]
          · intro hf
            rcases hf with h1 | ⟨k2, hk2, hv2⟩ | h1
            · rw [hek] at h1; cases h1
            · rw [hek] at hk2
              injection hk2 with hk2
              subst hk2
              rw [hv] at hv2
              cases hv2
            · cases h1
  | success => exact ⟨_, _, rfl, fun _ => trivial⟩
  | error e => exact ⟨_, _, rfl, fun _ => trivial⟩
  | goodbye e => exact ⟨_, _, rfl, fun hf => False.elim hf⟩
  | insertPrekeys ks =>
    cases hid : st.identity with
    | none =>
      refine ⟨ArkeCommand.error (CommandError.serverError (lit "no identity")),
        st, ?_, fun _ => trivial⟩
      simp [handle, insertPrekeysHandler, hid]
    | some name =>
      cases hfind : st.users.find? (fun u => u.username == name) with
      | none =>
        refine ⟨ArkeCommand.error (CommandError.serverError
          (lit "unknown user")), st, ?_, fun _ => trivial⟩
        simp [handle, insertPrekeysHandler, hid, hfind]
      | some u =>
        have hmem := List.mem_of_find?_eq_some hfind
        obtain ⟨stored, hs⟩ := Option.isSome_iff_exists.mp (hst u hmem)
        refine ⟨ArkeCommand.success,
          { st with users := st.users.map (fun v =>
              if v.username == name then
                { u with one_time_prekeys := renderPKList (stored ++ ks) }
              else v) }, ?_, ?_⟩
        · simp [handle, insertPrekeysHandler, hid, hfind, User.insert_prekeys, hs]
        · intro hf
          rcases hf with h1 | ⟨name2, hn2, hfind2⟩
          · rw [hid] at h1; cases h1
          · rw [hid] at hn2
            injection hn2 with hn2
            subst hn2
            rw [hfind] at hfind2
            cases hfind2

/-- Witness for C8: a state with no identity, processing `InsertPrekeys` —
a collaborator failure — still returns a command, an in-band error. -/
theorem c8_handle_total_witness :
    StoreWF (ConvState.new (lit "srv") []) ∧
    ∃ r st2, handle (fun _ => some ()) (fun _ _ _ => true) true (0, 1, 0)
      (ConvState.new (lit "srv") [])
      (ArkeCommand.insertPrekeys [PublicKey.mk [1]]) = some (r, st2) ∧
      (collabFailure (fun _ => some ()) (fun _ _ _ => true) true
        (ConvState.new (lit "srv") [])
        (ArkeCommand.insertPrekeys [PublicKey.mk [1]]) → inBand r) :=
  ⟨by decide,
   c8_handle_total_in_band (fun _ => some ()) (fun _ _ _ => true) true
     (0, 1, 0) (ConvState.new (lit "srv") [])
     (ArkeCommand.insertPrekeys [PublicKey.mk [1]]) (by decide)⟩

/-- C9: every message the engine writes through `send_command` is the JSON
encoding of the command followed by exactly one appended newline byte: the
encoding itself never contains a raw newline (every control character is
escaped), so the message holds exactly one `0x0A`, at its end. -/
theorem c9_newline_terminator (c : ArkeCommand) :
    sendBytes c = renderCommand c ++ ['\n'] ∧
    '\n' ∉ renderCommand c ∧
    (sendBytes c).count '\n' = 1 := by
  refine ⟨rfl, newline_not_mem_renderCommand c, ?_⟩
  rw [sendBytes, List.count_append,
    List.count_eq_zero.mpr (newline_not_mem_renderCommand c)]
  rfl

/-- C10: `insert_prekeys` and `pop_prekey` change only the one-time prekey
pool: username, identity key, signed prekey, and prekey signature are
untouched by both. -/
theorem c10_prekey_frame :
    (∀ (u : User) (ks : List PublicKey) (u' : User),
      u.insert_prekeys ks = some u' →
      u'.username = u.username ∧ u'.identity_key = u.identity_key ∧
      u'.signed_prekey = u.signed_prekey ∧
      u'.prekey_signature = u.prekey_signature) ∧
    (∀ (u : User) (r : Option PublicKey) (u' : User),
      u.pop_prekey = some (r, u') →
      u'.username = u.username ∧ u'.identity_key = u.identity_key ∧
      u'.signed_prekey = u.signed_prekey ∧
      u'.prekey_signature = u.prekey_signature) := by
  constructor
  · intro u ks u' h
    rw [User.insert_prekeys] at h
    cases hp : parsePoolDoc u.one_time_prekeys with
    | none =>
      rw [hp] at h
      exact Option.noConfusion h
    | some stored =>
      rw [hp] at h
      have h2 : some ({ u with
          one_time_prekeys := renderPKList (stored ++ ks) }) = some u' := h
      injection h2 with h2
      subst h2
      exact ⟨rfl, rfl, rfl, rfl⟩
  · intro u r u' h
    rw [User.pop_prekey] at h
    cases hp : parsePoolDoc u.one_time_prekeys with
    | none =>
      rw [hp] at h
      exact Option.noConfusion h
    | some stored =>
      rw [hp] at h
      have h2 : some (stored.getLast?, { u with
          one_time_prekeys := renderPKList stored.dropLast }) = some (r, u') := h
      injection h2 with h2
      have hu' := congrArg Prod.snd h2
      simp only at hu'
      rw [← hu']
      exact ⟨rfl, rfl, rfl, rfl⟩

/-- Witness for C10 on a concrete user and key. -/
theorem c10_prekey_frame_witness :
    (User.mk (lit "alice") (PublicKey.mk [1]) (PublicKey.mk [2]) [3]
      (lit "[]")).insert_prekeys [PublicKey.mk [5]] =
      some (User.mk (lit "alice") (PublicKey.mk [1]) (PublicKey.mk [2]) [3]
        (lit "[[5]]")) ∧
    ((User.mk (lit "alice") (PublicKey.mk [1]) (PublicKey.mk [2]) [3]
      (lit "[[5]]")).username =
      (User.mk (lit "alice") (PublicKey.mk [1]) (PublicKey.mk [2]) [3]
        (lit "[]")).username ∧
     (User.mk (lit "alice") (PublicKey.mk [1]) (PublicKey.mk [2]) [3]
      (lit "[[5]]")).identity_key =
      (User.mk (lit "alice") (PublicKey.mk [1]) (PublicKey.mk [2]) [3]
        (lit "[]")).identity_key ∧
     (User.mk (lit "alice") (PublicKey.mk [1]) (PublicKey.mk [2]) [3]
      (lit "[[5]]")).signed_prekey =
      (User.mk (lit "alice") (PublicKey.mk [1]) (PublicKey.mk [2]) [3]
        (lit "[]")).signed_prekey ∧
     (User.mk (lit "alice") (PublicKey.mk [1]) (PublicKey.mk [2]) [3]
      (lit "[[5]]")).prekey_signature =
      (User.mk (lit "alice") (PublicKey.mk [1]) (PublicKey.mk [2]) [3]
        (lit "[]")).prekey_signature) :=
  ⟨by decide,
   c10_prekey_frame.1 (User.mk (lit "alice") (PublicKey.mk [1])
       (PublicKey.mk [2]) [3] (lit "[]"))
     [PublicKey.mk [5]]
     (User.mk (lit "alice") (PublicKey.mk [1]) (PublicKey.mk [2]) [3]
       (lit "[[5]]"))
     (by decide)⟩

end Arke
